import Mathlib

/-!
# Verification of the `LibraryService` circulation engine

Shallow embedding of the `LibraryService` class from `src/index.tsx` of the
library-management repository, together with proofs of the specified
properties of its operations (`addBook`, `addStudent`, `issueBook`,
`returnBook`, `deleteBook`, `deleteStudent`).

Modelling conventions:
* Timestamps are milliseconds since the epoch, as `Nat` (the code stores ISO
  strings derived from millisecond `Date` values and compares/subtracts the
  underlying millisecond values).
* `crypto.randomUUID()` is modelled by a fresh-id counter `nextId` carried in
  the state: each generated id is the current counter value, which is then
  incremented, so generated ids are unique and distinct from all earlier ones.
* JavaScript numbers holding copy counts are modelled as `Int` (the code
  performs no validation, so non-positive counts can enter via `addBook`).
* `localStorage` holding the three collections is modelled as a record of
  three lists; each operation returns its result together with the new state.
-/

namespace Library

/-- Loan status, `'ISSUED' | 'RETURNED'` in the source. -/
inductive LoanStatus where
  | ISSUED
  | RETURNED
deriving DecidableEq, Repr

/-- The `Book` interface of `src/index.tsx`. -/
structure Book where
  id : Nat
  title : String
  author : String
  isbn : String
  category : String
  totalCopies : Int
  availableCopies : Int
  addedAt : Nat
deriving DecidableEq, Repr

/-- The `Student` interface of `src/index.tsx`. -/
structure Student where
  id : Nat
  name : String
  rollNo : String
  department : String
  email : String
  joinedAt : Nat
deriving DecidableEq, Repr

/-- The `Transaction` (loan) interface of `src/index.tsx`. -/
structure Transaction where
  id : Nat
  bookId : Nat
  studentId : Nat
  issueDate : Nat
  dueDate : Nat
  returnDate : Option Nat
  status : LoanStatus
  fine : Nat
deriving DecidableEq, Repr

/-- The persisted collections (`lib_books`, `lib_students`, `lib_transactions`)
plus the fresh-id counter modelling `crypto.randomUUID()`. -/
structure LibraryState where
  books : List Book
  students : List Student
  transactions : List Transaction
  nextId : Nat
deriving DecidableEq, Repr

/-- The `{ success, message }` shape returned by `issueBook` / `returnBook`. -/
structure OpResult where
  success : Bool
  message : String
deriving DecidableEq, Repr

/-- Milliseconds in one day, `1000 * 60 * 60 * 24` in the source. -/
def msPerDay : Nat := 1000 * 60 * 60 * 24

/-- Milliseconds in seven days, `7 * 24 * 60 * 60 * 1000` in the source
(the default loan period added to `Date.now()` for `dueDate`). -/
def loanPeriodMs : Nat := 7 * 24 * 60 * 60 * 1000

/-- The fine computation of `returnBook` (`src/index.tsx` lines 172–177):
`0` when not strictly overdue, otherwise
`Math.ceil((returnDate - dueDate) / msPerDay) * 1`.
`Math.ceil` on the positive quantity `diffTime / msPerDay` is
`(diffTime + msPerDay - 1) / msPerDay` in natural-number division. -/
def computeFine (returnTime dueTime : Nat) : Nat :=
  if dueTime < returnTime then
    ((returnTime - dueTime) + (msPerDay - 1)) / msPerDay * 1
  else 0

/-- First book in the list with the given id, mirroring
`books.findIndex(b => b.id === bookId)` read access. -/
def findBook? (bookId : Nat) : List Book → Option Book
  | [] => none
  | b :: bs => if b.id = bookId then some b else findBook? bookId bs

/-- First transaction in the list with the given id, mirroring
`transactions.findIndex(t => t.id === transactionId)` read access. -/
def findTxn? (txnId : Nat) : List Transaction → Option Transaction
  | [] => none
  | t :: ts => if t.id = txnId then some t else findTxn? txnId ts

/-- Outcome of scanning the book list during `issueBook`: the book is absent,
or the first book with the id has no available copy, or the decremented list. -/
inductive IssueScan where
  | notFound
  | unavailable
  | ok (books : List Book)
deriving DecidableEq, Repr

/-- The book-list part of `issueBook`: find the first book with the id
(`findIndex`), fail if absent or if `availableCopies <= 0`, otherwise
decrement that book's `availableCopies` in place. -/
def issueScan (bookId : Nat) : List Book → IssueScan
  | [] => .notFound
  | b :: bs =>
    if b.id = bookId then
      if b.availableCopies ≤ 0 then .unavailable
      else .ok ({ b with availableCopies := b.availableCopies - 1 } :: bs)
    else
      match issueScan bookId bs with
      | .ok bs' => .ok (b :: bs')
      | .notFound => .notFound
      | .unavailable => .unavailable

/-- The transaction object built by `issueBook` (`src/index.tsx` lines
140–148): generated id, `status = 'ISSUED'`, `fine = 0`, `issueDate = now`,
`dueDate` seven days later. -/
def newLoan (s : LibraryState) (bookId studentId now : Nat) : Transaction :=
  { id := s.nextId
    bookId := bookId
    studentId := studentId
    issueDate := now
    dueDate := now + loanPeriodMs
    returnDate := none
    status := .ISSUED
    fine := 0 }

/-- Embedding of `LibraryService.issueBook` (`src/index.tsx` lines 130–158). Takes the
current time `now` (`Date.now()`) explicitly. Returns the
`{ success, message }` result, the created transaction if any, and the new
state. Note: the code never looks at `studentId` beyond storing it. -/
def issueBook (s : LibraryState) (bookId studentId now : Nat) :
    OpResult × Option Transaction × LibraryState :=
  match issueScan bookId s.books with
  | .notFound => ({ success := false, message := "Book not found" }, none, s)
  | .unavailable => ({ success := false, message := "Book not available" }, none, s)
  | .ok books' =>
    ({ success := true, message := "Book issued successfully" },
      some (newLoan s bookId studentId now),
      { s with
          books := books'
          transactions := s.transactions ++ [newLoan s bookId studentId now]
          nextId := s.nextId + 1 })

/-- Outcome of scanning the transaction list during `returnBook`. -/
inductive ReturnScan where
  | notFound
  | alreadyReturned
  | ok (txns : List Transaction) (bookId : Nat) (fine : Nat)
deriving DecidableEq, Repr

/-- The transaction-list part of `returnBook`: find the first transaction with
the id, fail if absent or already `RETURNED`, otherwise mark it returned,
computing the fine from `now` and its due date, and report its `bookId`. -/
def returnScan (txnId now : Nat) : List Transaction → ReturnScan
  | [] => .notFound
  | t :: ts =>
    if t.id = txnId then
      if t.status = .RETURNED then .alreadyReturned
      else
        .ok ({ t with
                returnDate := some now
                status := .RETURNED
                fine := computeFine now t.dueDate } :: ts)
          t.bookId (computeFine now t.dueDate)
    else
      match returnScan txnId now ts with
      | .ok ts' bId f => .ok (t :: ts') bId f
      | .notFound => .notFound
      | .alreadyReturned => .alreadyReturned

/-- The book-availability part of `returnBook`: increment `availableCopies` of
the first book with the given id, and do nothing when no book matches
(`if (bookIndex !== -1)` in the source). -/
def incFirstBook (bookId : Nat) : List Book → List Book
  | [] => []
  | b :: bs =>
    if b.id = bookId then { b with availableCopies := b.availableCopies + 1 } :: bs
    else b :: incFirstBook bookId bs

/-- Embedding of `LibraryService.returnBook` (`src/index.tsx` lines 160–195). Takes the
current time `now` (`new Date()`) explicitly. -/
def returnBook (s : LibraryState) (txnId now : Nat) : OpResult × LibraryState :=
  match returnScan txnId now s.transactions with
  | .notFound => ({ success := false, message := "Transaction not found" }, s)
  | .alreadyReturned => ({ success := false, message := "Already returned" }, s)
  | .ok txns' bId fine =>
    ({ success := true, message := "Book returned. Fine: $" ++ toString fine },
      { s with
          books := incFirstBook bId s.books
          transactions := txns' })

/-- The book object built by `addBook` (`src/index.tsx` lines 107–112):
generated id, `availableCopies := totalCopies`, `addedAt := now`. -/
def newBook (s : LibraryState) (title author isbn category : String)
    (totalCopies : Int) (now : Nat) : Book :=
  { id := s.nextId
    title := title
    author := author
    isbn := isbn
    category := category
    totalCopies := totalCopies
    availableCopies := totalCopies
    addedAt := now }

/-- Embedding of `LibraryService.addBook` (`src/index.tsx` lines 105–116): pushes a new
book with a generated id, `availableCopies = totalCopies` and
`addedAt = now`, with no validation of `totalCopies`. -/
def addBook (s : LibraryState) (title author isbn category : String)
    (totalCopies : Int) (now : Nat) : Book × LibraryState :=
  (newBook s title author isbn category totalCopies now,
    { s with
        books := s.books ++ [newBook s title author isbn category totalCopies now]
        nextId := s.nextId + 1 })

/-- The student object built by `addStudent` (`src/index.tsx` lines 120–124). -/
def newStudent (s : LibraryState) (name rollNo department email : String)
    (now : Nat) : Student :=
  { id := s.nextId
    name := name
    rollNo := rollNo
    department := department
    email := email
    joinedAt := now }

/-- Embedding of `LibraryService.addStudent` (`src/index.tsx` lines 118–128). -/
def addStudent (s : LibraryState) (name rollNo department email : String)
    (now : Nat) : Student × LibraryState :=
  (newStudent s name rollNo department email now,
    { s with
        students := s.students ++ [newStudent s name rollNo department email now]
        nextId := s.nextId + 1 })

/-- Embedding of `LibraryService.deleteBook` (`src/index.tsx` lines 197–201):
`books.filter(b => b.id !== id)`, no result value, no absence check. -/
def deleteBook (s : LibraryState) (id : Nat) : LibraryState :=
  { s with books := s.books.filter (fun b => b.id ≠ id) }

/-- Embedding of `LibraryService.deleteStudent` (`src/index.tsx` lines 203–207):
`students.filter(s => s.id !== id)`, no result value, no absence check. -/
def deleteStudent (s : LibraryState) (id : Nat) : LibraryState :=
  { s with students := s.students.filter (fun st => st.id ≠ id) }

/-- The outcome surfaced by the UI handler `handleDeleteBook`
(`src/index.tsx` lines 733–739): `LibraryService.deleteBook` returns no
value, and after it runs the handler unconditionally reports the success
message "Book deleted.". -/
def deleteBookOutcome (s : LibraryState) (id : Nat) : OpResult × LibraryState :=
  ({ success := true, message := "Book deleted." }, deleteBook s id)

/-- The outcome surfaced by the UI handler `handleDeleteStudent`
(`src/index.tsx` lines 747–753): `LibraryService.deleteStudent` returns no
value, and after it runs the handler unconditionally reports the success
message "Student removed.". -/
def deleteStudentOutcome (s : LibraryState) (id : Nat) : OpResult × LibraryState :=
  ({ success := true, message := "Student removed." }, deleteStudent s id)

/-- One operation of the service, with the wall-clock time the code would
read from `Date` passed explicitly where the operation uses it. -/
inductive Op where
  | addBook (title author isbn category : String) (totalCopies : Int) (now : Nat)
  | addStudent (name rollNo department email : String) (now : Nat)
  | issueBook (bookId studentId now : Nat)
  | returnBook (txnId now : Nat)
  | deleteBook (id : Nat)
  | deleteStudent (id : Nat)
deriving DecidableEq, Repr

/-- State after executing one operation (its returned value discarded). -/
def applyOp (s : LibraryState) : Op → LibraryState
  | .addBook title author isbn category totalCopies now =>
    (addBook s title author isbn category totalCopies now).2
  | .addStudent name rollNo department email now =>
    (addStudent s name rollNo department email now).2
  | .issueBook bookId studentId now => (issueBook s bookId studentId now).2.2
  | .returnBook txnId now => (returnBook s txnId now).2
  | .deleteBook id => deleteBook s id
  | .deleteStudent id => deleteStudent s id

/-- State after a sequence of operations. -/
def applyOps (s : LibraryState) (ops : List Op) : LibraryState :=
  ops.foldl applyOp s

/-- Number of `ISSUED` loans on a given book id. -/
def issuedCount (bookId : Nat) (txns : List Transaction) : Nat :=
  (txns.filter fun t => t.bookId = bookId ∧ t.status = .ISSUED).length

/-- Copy-count conservation: every stored `availableCopies` equals
`totalCopies` minus the number of `ISSUED` loans on that book. -/
def conservation (s : LibraryState) : Prop :=
  ∀ b ∈ s.books, b.availableCopies = b.totalCopies - (issuedCount b.id s.transactions : Int)

/-- Consistency of a state: conservation holds, all generated ids (and the
book ids referenced by loans) are below the fresh-id counter, and book ids
and loan ids are pairwise distinct. Every state reachable by the service
from an empty store satisfies this. -/
def consistent (s : LibraryState) : Prop :=
  conservation s ∧
  (∀ b ∈ s.books, b.id < s.nextId) ∧
  (∀ t ∈ s.transactions, t.id < s.nextId ∧ t.bookId < s.nextId) ∧
  (s.books.map Book.id).Nodup ∧
  (s.transactions.map Transaction.id).Nodup

instance : DecidablePred conservation := fun s =>
  List.decidableBAll _ s.books

instance : DecidablePred consistent := fun _ =>
  inferInstanceAs (Decidable (_ ∧ _ ∧ _ ∧ _ ∧ _))

/-! ## Lemmas about the list scans -/

theorem findBook?_eq_none {bookId : Nat} {bs : List Book} :
    findBook? bookId bs = none ↔ ∀ b ∈ bs, b.id ≠ bookId := by
  induction bs with
  | nil => simp [findBook?]
  | cons a as ih =>
    by_cases h : a.id = bookId
    · simp [findBook?, h]
    · simp [findBook?, h, ih]

theorem findBook?_decomp {bookId : Nat} {bs : List Book} {b : Book}
    (h : findBook? bookId bs = some b) :
    ∃ pre suf, bs = pre ++ b :: suf ∧ (∀ x ∈ pre, x.id ≠ bookId) ∧ b.id = bookId := by
  induction bs with
  | nil => simp [findBook?] at h
  | cons a as ih =>
    rw [findBook?] at h
    by_cases hid : a.id = bookId
    · rw [if_pos hid] at h
      obtain rfl : a = b := by injection h
      exact ⟨[], as, rfl, by simp, hid⟩
    · rw [if_neg hid] at h
      obtain ⟨pre, suf, rfl, hpre, hb⟩ := ih h
      refine ⟨a :: pre, suf, rfl, ?_, hb⟩
      intro x hx
      rcases List.mem_cons.mp hx with rfl | hx
      · exact hid
      · exact hpre x hx

theorem findTxn?_decomp {txnId : Nat} {ts : List Transaction} {t : Transaction}
    (h : findTxn? txnId ts = some t) :
    ∃ pre suf, ts = pre ++ t :: suf ∧ (∀ x ∈ pre, x.id ≠ txnId) ∧ t.id = txnId := by
  induction ts with
  | nil => simp [findTxn?] at h
  | cons a as ih =>
    rw [findTxn?] at h
    by_cases hid : a.id = txnId
    · rw [if_pos hid] at h
      obtain rfl : a = t := by injection h
      exact ⟨[], as, rfl, by simp, hid⟩
    · rw [if_neg hid] at h
      obtain ⟨pre, suf, rfl, hpre, ht⟩ := ih h
      refine ⟨a :: pre, suf, rfl, ?_, ht⟩
      intro x hx
      rcases List.mem_cons.mp hx with rfl | hx
      · exact hid
      · exact hpre x hx

theorem findTxn?_of_decomp {txnId : Nat} {pre suf : List Transaction} {t : Transaction}
    (hpre : ∀ x ∈ pre, x.id ≠ txnId) (ht : t.id = txnId) :
    findTxn? txnId (pre ++ t :: suf) = some t := by
  induction pre with
  | nil => simp [findTxn?, ht]
  | cons a as ih =>
    have ha : a.id ≠ txnId := hpre a (by simp)
    rw [List.cons_append, findTxn?, if_neg ha]
    exact ih fun x hx => hpre x (by simp [hx])

theorem issueScan_eq_notFound {bookId : Nat} {bs : List Book}
    (h : ∀ b ∈ bs, b.id ≠ bookId) :
    issueScan bookId bs = .notFound := by
  induction bs with
  | nil => rfl
  | cons a as ih =>
    rw [issueScan, if_neg (h a (by simp)), ih fun x hx => h x (by simp [hx])]

theorem issueScan_eq_unavailable {bookId : Nat} {bs : List Book} {b : Book}
    (hfind : findBook? bookId bs = some b) (hav : b.availableCopies ≤ 0) :
    issueScan bookId bs = .unavailable := by
  induction bs with
  | nil => simp [findBook?] at hfind
  | cons a as ih =>
    rw [findBook?] at hfind
    by_cases hid : a.id = bookId
    · rw [if_pos hid] at hfind
      obtain rfl : a = b := by injection hfind
      rw [issueScan, if_pos hid, if_pos hav]
    · rw [if_neg hid] at hfind
      rw [issueScan, if_neg hid, ih hfind]

theorem issueScan_eq_ok {bookId : Nat} {pre suf : List Book} {b : Book}
    (hpre : ∀ x ∈ pre, x.id ≠ bookId) (hb : b.id = bookId)
    (hav : ¬ b.availableCopies ≤ 0) :
    issueScan bookId (pre ++ b :: suf) =
      .ok (pre ++ { b with availableCopies := b.availableCopies - 1 } :: suf) := by
  induction pre with
  | nil => simp [issueScan, hb, hav]
  | cons a as ih =>
    have ha : a.id ≠ bookId := hpre a (by simp)
    rw [List.cons_append, issueScan, if_neg ha,
      ih fun x hx => hpre x (by simp [hx])]
    rfl

theorem issueScan_ok_decomp {bookId : Nat} {bs bs' : List Book}
    (h : issueScan bookId bs = .ok bs') :
    ∃ pre b suf, bs = pre ++ b :: suf ∧
      bs' = pre ++ { b with availableCopies := b.availableCopies - 1 } :: suf ∧
      b.id = bookId ∧ ¬ b.availableCopies ≤ 0 ∧ ∀ x ∈ pre, x.id ≠ bookId := by
  induction bs generalizing bs' with
  | nil => simp [issueScan] at h
  | cons a as ih =>
    rw [issueScan] at h
    by_cases hid : a.id = bookId
    · rw [if_pos hid] at h
      by_cases hav : a.availableCopies ≤ 0
      · rw [if_pos hav] at h
        exact absurd h (by simp)
      · rw [if_neg hav] at h
        injection h with h1
        exact ⟨[], a, as, rfl, h1.symm, hid, hav, by simp⟩
    · rw [if_neg hid] at h
      cases hscan : issueScan bookId as with
      | notFound => rw [hscan] at h; exact absurd h (by simp)
      | unavailable => rw [hscan] at h; exact absurd h (by simp)
      | ok bs2 =>
        rw [hscan] at h
        simp only [] at h
        injection h with h1
        obtain ⟨pre, b, suf, rfl, hbs2, hb, hav, hpre⟩ := ih hscan
        refine ⟨a :: pre, b, suf, rfl, ?_, hb, hav, ?_⟩
        · rw [← h1, hbs2, List.cons_append]
        · intro x hx
          rcases List.mem_cons.mp hx with rfl | hx
          · exact hid
          · exact hpre x hx

theorem returnScan_eq_alreadyReturned {txnId now : Nat} {ts : List Transaction}
    {t : Transaction} (hfind : findTxn? txnId ts = some t)
    (hst : t.status = .RETURNED) :
    returnScan txnId now ts = .alreadyReturned := by
  induction ts with
  | nil => simp [findTxn?] at hfind
  | cons a as ih =>
    rw [findTxn?] at hfind
    by_cases hid : a.id = txnId
    · rw [if_pos hid] at hfind
      obtain rfl : a = t := by injection hfind
      rw [returnScan, if_pos hid, if_pos hst]
    · rw [if_neg hid] at hfind
      rw [returnScan, if_neg hid, ih hfind]

theorem returnScan_eq_notFound {txnId now : Nat} {ts : List Transaction}
    (h : ∀ t ∈ ts, t.id ≠ txnId) :
    returnScan txnId now ts = .notFound := by
  induction ts with
  | nil => rfl
  | cons a as ih =>
    rw [returnScan, if_neg (h a (by simp)), ih fun x hx => h x (by simp [hx])]

theorem returnScan_eq_ok {txnId now : Nat} {pre suf : List Transaction}
    {t : Transaction} (hpre : ∀ x ∈ pre, x.id ≠ txnId) (ht : t.id = txnId)
    (hst : ¬ t.status = .RETURNED) :
    returnScan txnId now (pre ++ t :: suf) =
      .ok (pre ++ { t with
                      returnDate := some now
                      status := .RETURNED
                      fine := computeFine now t.dueDate } :: suf)
        t.bookId (computeFine now t.dueDate) := by
  induction pre with
  | nil => simp [returnScan, ht, hst]
  | cons a as ih =>
    have ha : a.id ≠ txnId := hpre a (by simp)
    rw [List.cons_append, returnScan, if_neg ha,
      ih fun x hx => hpre x (by simp [hx])]
    rfl

theorem returnScan_ok_decomp {txnId now : Nat} {ts ts' : List Transaction}
    {bId f : Nat} (h : returnScan txnId now ts = .ok ts' bId f) :
    ∃ pre t suf, ts = pre ++ t :: suf ∧
      ts' = pre ++ { t with
                       returnDate := some now
                       status := .RETURNED
                       fine := computeFine now t.dueDate } :: suf ∧
      t.id = txnId ∧ t.status = .ISSUED ∧ bId = t.bookId ∧
      f = computeFine now t.dueDate ∧ ∀ x ∈ pre, x.id ≠ txnId := by
  induction ts generalizing ts' bId f with
  | nil => simp [returnScan] at h
  | cons a as ih =>
    rw [returnScan] at h
    by_cases hid : a.id = txnId
    · rw [if_pos hid] at h
      by_cases hst : a.status = .RETURNED
      · rw [if_pos hst] at h
        exact absurd h (by simp)
      · rw [if_neg hst] at h
        injection h with h1 h2 h3
        have hst' : a.status = .ISSUED := by
          cases hs : a.status
          · rfl
          · exact absurd hs hst
        exact ⟨[], a, as, rfl, h1.symm, hid, hst', h2.symm, h3.symm, by simp⟩
    · rw [if_neg hid] at h
      cases hscan : returnScan txnId now as with
      | notFound => rw [hscan] at h; exact absurd h (by simp)
      | alreadyReturned => rw [hscan] at h; exact absurd h (by simp)
      | ok ts2 bId2 f2 =>
        rw [hscan] at h
        simp only [] at h
        injection h with h1 h2 h3
        obtain ⟨pre, t, suf, rfl, hts2, ht, hst, hb, hf, hpre⟩ := ih hscan
        refine ⟨a :: pre, t, suf, rfl, ?_, ht, hst, h2 ▸ hb, h3 ▸ hf, ?_⟩
        · rw [← h1, hts2, List.cons_append]
        · intro x hx
          rcases List.mem_cons.mp hx with rfl | hx
          · exact hid
          · exact hpre x hx

theorem incFirstBook_of_none {bookId : Nat} {bs : List Book}
    (h : ∀ b ∈ bs, b.id ≠ bookId) : incFirstBook bookId bs = bs := by
  induction bs with
  | nil => rfl
  | cons a as ih =>
    rw [incFirstBook, if_neg (h a (by simp)), ih fun x hx => h x (by simp [hx])]

theorem incFirstBook_decomp {bookId : Nat} {pre suf : List Book} {b : Book}
    (hpre : ∀ x ∈ pre, x.id ≠ bookId) (hb : b.id = bookId) :
    incFirstBook bookId (pre ++ b :: suf) =
      pre ++ { b with availableCopies := b.availableCopies + 1 } :: suf := by
  induction pre with
  | nil => simp [incFirstBook, hb]
  | cons a as ih =>
    have ha : a.id ≠ bookId := hpre a (by simp)
    rw [List.cons_append, incFirstBook, if_neg ha,
      ih fun x hx => hpre x (by simp [hx])]
    rfl

/-! ## Lemmas about `issuedCount` -/

theorem issuedCount_append (bookId : Nat) (ts us : List Transaction) :
    issuedCount bookId (ts ++ us) = issuedCount bookId ts + issuedCount bookId us := by
  simp [issuedCount, List.filter_append]

theorem issuedCount_cons (bookId : Nat) (t : Transaction) (ts : List Transaction) :
    issuedCount bookId (t :: ts) =
      (if t.bookId = bookId ∧ t.status = .ISSUED then 1 else 0) +
        issuedCount bookId ts := by
  rw [issuedCount, List.filter_cons]
  by_cases h : t.bookId = bookId ∧ t.status = .ISSUED
  · simp [h, issuedCount, Nat.add_comm]
  · simp [h, issuedCount]

theorem issuedCount_eq_zero {bookId : Nat} {ts : List Transaction}
    (h : ∀ t ∈ ts, t.bookId ≠ bookId) : issuedCount bookId ts = 0 := by
  rw [issuedCount, List.length_eq_zero, List.filter_eq_nil_iff]
  intro t ht
  simp [h t ht]

/-- A middle element of a `Nodup`-image list has an image distinct from the
images of the other elements. -/
theorem nodup_mid_ne {α β : Type*} {f : α → β} {pre suf : List α} {b x : α}
    (hnd : ((pre ++ b :: suf).map f).Nodup) (hx : x ∈ suf) : f x ≠ f b := by
  rw [List.map_append, List.map_cons, List.nodup_append] at hnd
  have hbn : f b ∉ suf.map f := (List.nodup_cons.mp hnd.2.1).1
  intro hEq
  exact hbn (hEq ▸ List.mem_map_of_mem f hx)

theorem issuedCount_singleton (x : Nat) (t : Transaction) :
    issuedCount x [t] = if t.bookId = x ∧ t.status = .ISSUED then 1 else 0 := by
  rw [issuedCount_cons]
  rfl

theorem issuedCount_snoc (x : Nat) (ts : List Transaction) (t : Transaction) :
    issuedCount x (ts ++ [t]) =
      issuedCount x ts + (if t.bookId = x ∧ t.status = .ISSUED then 1 else 0) := by
  rw [issuedCount_append, issuedCount_singleton]

/-- Replacing a transaction by one on the same book leaves the issued count
of every other book unchanged, whatever happens to the status. -/
theorem issuedCount_replace_ne {x : Nat} {pre suf : List Transaction}
    {t t' : Transaction} (hb : t'.bookId = t.bookId) (hne : t.bookId ≠ x) :
    issuedCount x (pre ++ t' :: suf) = issuedCount x (pre ++ t :: suf) := by
  rw [issuedCount_append, issuedCount_append, issuedCount_cons, issuedCount_cons, hb]
  simp [hne]

/-- Marking an `ISSUED` transaction `RETURNED` lowers the issued count of its
book by exactly one. -/
theorem issuedCount_mark_returned {now f : Nat} {x : Nat} {pre suf : List Transaction}
    {t : Transaction} (hbook : t.bookId = x) (hst : t.status = .ISSUED) :
    issuedCount x (pre ++ t :: suf) =
      issuedCount x
        (pre ++ { t with returnDate := some now, status := .RETURNED, fine := f } :: suf)
        + 1 := by
  rw [issuedCount_append, issuedCount_append, issuedCount_cons, issuedCount_cons]
  have h1 : t.bookId = x ∧ t.status = LoanStatus.ISSUED := ⟨hbook, hst⟩
  simp only [h1, if_pos, hbook]
  simp
  omega

/-! ## Preservation of consistency by every operation -/

theorem consistent_addBook {s : LibraryState} (h : consistent s)
    (title author isbn category : String) (tc : Int) (now : Nat) :
    consistent (addBook s title author isbn category tc now).2 := by
  obtain ⟨hcons, hbid, htid, hbnd, htnd⟩ := h
  refine ⟨?_, ?_, ?_, ?_, htnd⟩
  · intro b hb
    simp only [addBook, List.mem_append, List.mem_singleton] at hb
    rcases hb with hb | rfl
    · exact hcons b hb
    · have hz : issuedCount s.nextId s.transactions = 0 :=
        issuedCount_eq_zero fun t ht => Nat.ne_of_lt (htid t ht).2
      show (newBook s title author isbn category tc now).availableCopies = _
      simp [newBook, addBook, hz]
  · intro b hb
    simp only [addBook, List.mem_append, List.mem_singleton] at hb
    rcases hb with hb | rfl
    · exact Nat.lt_succ_of_lt (hbid b hb)
    · simp [newBook, addBook]
  · intro t ht
    exact ⟨Nat.lt_succ_of_lt (htid t ht).1, Nat.lt_succ_of_lt (htid t ht).2⟩
  · show ((s.books ++ [newBook s title author isbn category tc now]).map Book.id).Nodup
    rw [List.map_append, List.map_cons, List.map_nil, List.nodup_append]
    refine ⟨hbnd, List.nodup_singleton _, ?_⟩
    intro x hx hy
    obtain ⟨b, hb, rfl⟩ := List.mem_map.mp hx
    simp only [newBook, List.mem_singleton] at hy
    exact absurd (hy ▸ hbid b hb) (lt_irrefl _)

theorem consistent_addStudent {s : LibraryState} (h : consistent s)
    (name rollNo department email : String) (now : Nat) :
    consistent (addStudent s name rollNo department email now).2 := by
  obtain ⟨hcons, hbid, htid, hbnd, htnd⟩ := h
  refine ⟨hcons, ?_, ?_, hbnd, htnd⟩
  · intro b hb
    exact Nat.lt_succ_of_lt (hbid b hb)
  · intro t ht
    exact ⟨Nat.lt_succ_of_lt (htid t ht).1, Nat.lt_succ_of_lt (htid t ht).2⟩

theorem consistent_deleteBook {s : LibraryState} (h : consistent s) (id : Nat) :
    consistent (deleteBook s id) := by
  obtain ⟨hcons, hbid, htid, hbnd, htnd⟩ := h
  refine ⟨?_, ?_, htid, ?_, htnd⟩
  · intro b hb
    exact hcons b (List.mem_of_mem_filter hb)
  · intro b hb
    exact hbid b (List.mem_of_mem_filter hb)
  · exact List.Nodup.sublist ((List.filter_sublist _).map Book.id) hbnd

theorem consistent_deleteStudent {s : LibraryState} (h : consistent s) (id : Nat) :
    consistent (deleteStudent s id) := h

theorem incFirstBook_map_id (bookId : Nat) (bs : List Book) :
    (incFirstBook bookId bs).map Book.id = bs.map Book.id := by
  induction bs with
  | nil => rfl
  | cons a as ih =>
    rw [incFirstBook]
    by_cases h : a.id = bookId
    · rw [if_pos h]
      simp
    · rw [if_neg h]
      simp [ih]

theorem consistent_issueBook {s : LibraryState} (h : consistent s)
    (bookId studentId now : Nat) :
    consistent (issueBook s bookId studentId now).2.2 := by
  obtain ⟨hcons, hbid, htid, hbnd, htnd⟩ := h
  cases hscan : issueScan bookId s.books with
  | notFound =>
    simp only [issueBook, hscan]
    exact ⟨hcons, hbid, htid, hbnd, htnd⟩
  | unavailable =>
    simp only [issueBook, hscan]
    exact ⟨hcons, hbid, htid, hbnd, htnd⟩
  | ok books' =>
    obtain ⟨pre, b, suf, hbs, hbs', hbId, hav, hpre⟩ := issueScan_ok_decomp hscan
    have hBmem : b ∈ s.books := by rw [hbs]; simp
    have hblt : bookId < s.nextId := hbId ▸ hbid b hBmem
    have hmapid : books'.map Book.id = s.books.map Book.id := by
      rw [hbs', hbs]
      simp
    simp only [issueBook, hscan]
    have hcnt : ∀ y : Nat, y ≠ bookId →
        issuedCount y (s.transactions ++ [newLoan s bookId studentId now]) =
          issuedCount y s.transactions := by
      intro y hy
      rw [issuedCount_snoc]
      simp [newLoan, Ne.symm hy]
    refine ⟨?_, ?_, ?_, ?_, ?_⟩
    · intro x hx
      rw [hbs'] at hx
      rcases List.mem_append.mp hx with hx | hx
      · have hxid : x.id ≠ bookId := hpre x hx
        have hxmem : x ∈ s.books := by
          rw [hbs]
          exact List.mem_append_left _ hx
        show x.availableCopies = x.totalCopies -
          (issuedCount x.id (s.transactions ++ [newLoan s bookId studentId now]) : Int)
        rw [hcnt x.id hxid]
        exact hcons x hxmem
      · rcases List.mem_cons.mp hx with rfl | hx
        · have hplus : issuedCount b.id
              (s.transactions ++ [newLoan s bookId studentId now]) =
              issuedCount b.id s.transactions + 1 := by
            rw [issuedCount_snoc]
            simp [newLoan, hbId]
          have hold := hcons b hBmem
          show b.availableCopies - 1 = b.totalCopies -
            (issuedCount b.id (s.transactions ++ [newLoan s bookId studentId now]) : Int)
          rw [hplus]
          push_cast
          omega
        · have hxid : x.id ≠ bookId := hbId ▸ nodup_mid_ne (hbs ▸ hbnd) hx
          have hxmem : x ∈ s.books := by
            rw [hbs]
            exact List.mem_append_right _ (List.mem_cons_of_mem _ hx)
          show x.availableCopies = x.totalCopies -
            (issuedCount x.id (s.transactions ++ [newLoan s bookId studentId now]) : Int)
          rw [hcnt x.id hxid]
          exact hcons x hxmem
    · intro x hx
      have hx' : x.id ∈ books'.map Book.id := List.mem_map_of_mem _ hx
      rw [hmapid] at hx'
      obtain ⟨y, hy, hxy⟩ := List.mem_map.mp hx'
      exact hxy ▸ Nat.lt_succ_of_lt (hbid y hy)
    · intro t ht
      rcases List.mem_append.mp ht with ht | ht
      · exact ⟨Nat.lt_succ_of_lt (htid t ht).1, Nat.lt_succ_of_lt (htid t ht).2⟩
      · obtain rfl := List.mem_singleton.mp ht
        exact ⟨Nat.lt_succ_self _, Nat.lt_succ_of_lt hblt⟩
    · exact hmapid.symm ▸ hbnd
    · show ((s.transactions ++ [newLoan s bookId studentId now]).map
        Transaction.id).Nodup
      rw [List.map_append, List.map_cons, List.map_nil, List.nodup_append]
      refine ⟨htnd, List.nodup_singleton _, ?_⟩
      intro x hx hy
      obtain ⟨t, ht, rfl⟩ := List.mem_map.mp hx
      simp only [newLoan, List.mem_singleton] at hy
      exact absurd (hy ▸ (htid t ht).1) (lt_irrefl _)

theorem consistent_returnBook {s : LibraryState} (h : consistent s)
    (txnId now : Nat) :
    consistent (returnBook s txnId now).2 := by
  obtain ⟨hcons, hbid, htid, hbnd, htnd⟩ := h
  cases hscan : returnScan txnId now s.transactions with
  | notFound =>
    simp only [returnBook, hscan]
    exact ⟨hcons, hbid, htid, hbnd, htnd⟩
  | alreadyReturned =>
    simp only [returnBook, hscan]
    exact ⟨hcons, hbid, htid, hbnd, htnd⟩
  | ok ts' bId f =>
    obtain ⟨tpre, t, tsuf, hts, hts', htId, htSt, hbEq, hfEq, htpre⟩ :=
      returnScan_ok_decomp hscan
    have htmem : t ∈ s.transactions := by rw [hts]; simp
    have htmap : ts'.map Transaction.id = s.transactions.map Transaction.id := by
      rw [hts', hts]
      simp
    have hcnt_ne : ∀ y : Nat, t.bookId ≠ y →
        issuedCount y ts' = issuedCount y s.transactions := by
      intro y hy
      rw [hts', hts]
      exact issuedCount_replace_ne rfl hy
    simp only [returnBook, hscan]
    refine ⟨?_, ?_, ?_, ?_, ?_⟩
    · intro x hx
      cases hfb : findBook? bId s.books with
      | none =>
        have h0 : ∀ y ∈ s.books, y.id ≠ bId := findBook?_eq_none.mp hfb
        rw [incFirstBook_of_none h0] at hx
        have hxid : t.bookId ≠ x.id := fun hEq => h0 x hx (hEq ▸ hbEq.symm)
        show x.availableCopies = x.totalCopies - (issuedCount x.id ts' : Int)
        rw [hcnt_ne x.id hxid]
        exact hcons x hx
      | some b =>
        obtain ⟨bpre, bsuf, hbs, hbpre, hbId⟩ := findBook?_decomp hfb
        rw [hbs, incFirstBook_decomp hbpre hbId] at hx
        rcases List.mem_append.mp hx with hx | hx
        · have hxid : t.bookId ≠ x.id := fun hEq => hbpre x hx (hEq ▸ hbEq.symm)
          have hxmem : x ∈ s.books := by
            rw [hbs]
            exact List.mem_append_left _ hx
          show x.availableCopies = x.totalCopies - (issuedCount x.id ts' : Int)
          rw [hcnt_ne x.id hxid]
          exact hcons x hxmem
        · rcases List.mem_cons.mp hx with rfl | hx
          · have hbmem : b ∈ s.books := by rw [hbs]; simp
            have hold := hcons b hbmem
            have htb : t.bookId = b.id := by rw [hbId, hbEq]
            have hdrop : issuedCount b.id s.transactions =
                issuedCount b.id ts' + 1 := by
              rw [hts, hts']
              exact issuedCount_mark_returned htb htSt
            show b.availableCopies + 1 = b.totalCopies - (issuedCount b.id ts' : Int)
            rw [hdrop] at hold
            push_cast at hold ⊢
            omega
          · have hxb : x.id ≠ b.id := nodup_mid_ne (hbs ▸ hbnd) hx
            have htb : t.bookId = b.id := by rw [hbId, ← hbEq]
            have hxid : t.bookId ≠ x.id := by
              rw [htb]
              exact fun hEq => hxb hEq.symm
            have hxmem : x ∈ s.books := by
              rw [hbs]
              exact List.mem_append_right _ (List.mem_cons_of_mem _ hx)
            show x.availableCopies = x.totalCopies - (issuedCount x.id ts' : Int)
            rw [hcnt_ne x.id hxid]
            exact hcons x hxmem
    · intro x hx
      have hx' : x.id ∈ (incFirstBook bId s.books).map Book.id :=
        List.mem_map_of_mem _ hx
      rw [incFirstBook_map_id] at hx'
      obtain ⟨y, hy, hxy⟩ := List.mem_map.mp hx'
      exact hxy ▸ hbid y hy
    · intro x hx
      rw [hts'] at hx
      rcases List.mem_append.mp hx with hx | hx
      · exact htid x (by rw [hts]; exact List.mem_append_left _ hx)
      · rcases List.mem_cons.mp hx with rfl | hx
        · exact htid t htmem
        · exact htid x
            (by rw [hts]; exact List.mem_append_right _ (List.mem_cons_of_mem _ hx))
    · exact (incFirstBook_map_id bId s.books).symm ▸ hbnd
    · exact htmap.symm ▸ htnd

/-- Every operation preserves consistency. -/
theorem consistent_applyOp {s : LibraryState} (h : consistent s) (op : Op) :
    consistent (applyOp s op) := by
  cases op with
  | addBook title author isbn category tc now => exact consistent_addBook h _ _ _ _ _ _
  | addStudent name rollNo department email now => exact consistent_addStudent h _ _ _ _ _
  | issueBook bookId studentId now => exact consistent_issueBook h _ _ _
  | returnBook txnId now => exact consistent_returnBook h _ _
  | deleteBook id => exact consistent_deleteBook h _
  | deleteStudent id => exact consistent_deleteStudent h _

/-- Every sequence of operations preserves consistency. -/
theorem consistent_applyOps {s : LibraryState} (h : consistent s) (ops : List Op) :
    consistent (applyOps s ops) := by
  induction ops generalizing s with
  | nil => exact h
  | cons op ops ih => exact ih (consistent_applyOp h op)

/-! ## Terminality of RETURNED loans -/

/-- In a list with pairwise-distinct ids, the first id match of a member is
the member itself. -/
theorem findTxn?_self {ts : List Transaction} {l : Transaction}
    (hnd : (ts.map Transaction.id).Nodup) (hl : l ∈ ts) :
    findTxn? l.id ts = some l := by
  induction ts with
  | nil => cases hl
  | cons a as ih =>
    rw [List.map_cons, List.nodup_cons] at hnd
    have hnd' := hnd
    rw [findTxn?]
    rcases List.mem_cons.mp hl with rfl | hl
    · rw [if_pos rfl]
    · by_cases hid : a.id = l.id
      · exact absurd (hid ▸ List.mem_map_of_mem Transaction.id hl) hnd'.1
      · rw [if_neg hid]
        exact ih hnd'.2 hl

/-- A `RETURNED` transaction object survives any single operation untouched:
it is still an element of the transaction list afterwards. -/
theorem returned_mem_applyOp {s : LibraryState} {l : Transaction}
    (hl : l ∈ s.transactions) (hret : l.status = .RETURNED) (op : Op) :
    l ∈ (applyOp s op).transactions := by
  cases op with
  | addBook title author isbn category tc now => exact hl
  | addStudent name rollNo department email now => exact hl
  | deleteBook id => exact hl
  | deleteStudent id => exact hl
  | issueBook bookId studentId now =>
    show l ∈ (issueBook s bookId studentId now).2.2.transactions
    cases hscan : issueScan bookId s.books with
    | notFound => simpa [issueBook, hscan] using hl
    | unavailable => simpa [issueBook, hscan] using hl
    | ok books' =>
      simp only [issueBook, hscan]
      exact List.mem_append_left _ hl
  | returnBook txnId now =>
    show l ∈ (returnBook s txnId now).2.transactions
    cases hscan : returnScan txnId now s.transactions with
    | notFound => simpa [returnBook, hscan] using hl
    | alreadyReturned => simpa [returnBook, hscan] using hl
    | ok ts' bId f =>
      obtain ⟨tpre, t, tsuf, hts, hts', htId, htSt, hbEq, hfEq, htpre⟩ :=
        returnScan_ok_decomp hscan
      simp only [returnBook, hscan]
      show l ∈ ts'
      rw [hts']
      rw [hts] at hl
      rcases List.mem_append.mp hl with h1 | h1
      · exact List.mem_append_left _ h1
      · rcases List.mem_cons.mp h1 with rfl | h1
        · exact absurd (hret.symm.trans htSt) (by decide)
        · exact List.mem_append_right _ (List.mem_cons_of_mem _ h1)

/-- A `RETURNED` transaction object survives any sequence of operations. -/
theorem returned_mem_applyOps {s : LibraryState} {l : Transaction}
    (hl : l ∈ s.transactions) (hret : l.status = .RETURNED) (ops : List Op) :
    l ∈ (applyOps s ops).transactions := by
  induction ops generalizing s with
  | nil => exact hl
  | cons op ops ih => exact ih (returned_mem_applyOp hl hret op)

/-- Calling `returnBook` on a loan that is already `RETURNED` fails with the
"Already returned" message and changes nothing. -/
theorem returnBook_already {s : LibraryState} (hcon : consistent s)
    {l : Transaction} (hl : l ∈ s.transactions) (hret : l.status = .RETURNED)
    (now : Nat) :
    returnBook s l.id now = ({ success := false, message := "Already returned" }, s) := by
  have hfind := findTxn?_self hcon.2.2.2.2 hl
  simp only [returnBook, returnScan_eq_alreadyReturned hfind hret]

/-! ## The claims -/

/-- C1: Copy-count conservation: for every Book in the store and after any
sequence of operations starting from a consistent state, the Book's
`availableCopies` equals its `totalCopies` minus the number of loans with
`bookId` equal to that Book's id and status `ISSUED`. -/
theorem copy_count_conservation (s : LibraryState) (ops : List Op) (b : Book)
    (hs : consistent s) (hb : b ∈ (applyOps s ops).books) :
    b.availableCopies =
      b.totalCopies - (issuedCount b.id (applyOps s ops).transactions : Int) :=
  (consistent_applyOps hs ops).1 b hb

theorem copy_count_conservation_witness :
    consistent ⟨[⟨1, "", "", "", "", 2, 2, 0⟩], [], [], 2⟩ ∧
    (⟨1, "", "", "", "", 2, 1, 0⟩ : Book) ∈
      (applyOps ⟨[⟨1, "", "", "", "", 2, 2, 0⟩], [], [], 2⟩
        [.issueBook 1 7 100]).books ∧
    (⟨1, "", "", "", "", 2, 1, 0⟩ : Book).availableCopies =
      (⟨1, "", "", "", "", 2, 1, 0⟩ : Book).totalCopies -
        (issuedCount (⟨1, "", "", "", "", 2, 1, 0⟩ : Book).id
          (applyOps ⟨[⟨1, "", "", "", "", 2, 2, 0⟩], [], [], 2⟩
            [.issueBook 1 7 100]).transactions : Int) :=
  ⟨by decide, by decide,
    copy_count_conservation _ [.issueBook 1 7 100] _ (by decide) (by decide)⟩

/-- C2: Fine computation: a return at or before the due date yields fine 0;
a late return yields `finePerDay = 1` times the ceiling of the lateness in
whole days (`computeFine r d` is the least number of days covering `r - d`);
in particular one second late yields 1 and 25 hours late yields 2. -/
theorem fine_computation (d r : Nat) :
    (r ≤ d → computeFine r d = 0) ∧
    (d < r →
      r - d ≤ computeFine r d * msPerDay ∧
      ∀ n : Nat, r - d ≤ n * msPerDay → computeFine r d ≤ n) ∧
    computeFine (d + 1000) d = 1 ∧
    computeFine (d + 25 * 60 * 60 * 1000) d = 2 := by
  refine ⟨?_, ?_, ?_, ?_⟩
  · intro h
    rw [computeFine, if_neg (by omega)]
  · intro h
    rw [computeFine, if_pos h]
    simp only [msPerDay]
    constructor
    · omega
    · intro n hn
      omega
  · rw [computeFine, if_pos (by omega)]
    simp only [msPerDay]
    omega
  · rw [computeFine, if_pos (by omega)]
    simp only [msPerDay]
    omega

theorem fine_computation_witness :
    computeFine 0 5 = 0 ∧
    (5 - 0 ≤ computeFine 5 0 * msPerDay ∧
      ∀ n : Nat, 5 - 0 ≤ n * msPerDay → computeFine 5 0 ≤ n) ∧
    computeFine (0 + 1000) 0 = 1 ∧
    computeFine (0 + 25 * 60 * 60 * 1000) 0 = 2 :=
  ⟨(fine_computation 5 0).1 (by omega), (fine_computation 0 5).2.1 (by omega),
    (fine_computation 0 0).2.2.1, (fine_computation 0 0).2.2.2⟩

/-- C3: Unavailability rejection with atomicity: when the book identified by
`bookId` is found with `availableCopies ≤ 0`, `issueBook` fails with the
"Book not available" outcome, creates no loan, and returns the state
unchanged. -/
theorem unavailable_rejection (s : LibraryState) (bookId studentId now : Nat)
    (b : Book) (hfind : findBook? bookId s.books = some b)
    (hav : b.availableCopies ≤ 0) :
    issueBook s bookId studentId now =
      ({ success := false, message := "Book not available" }, none, s) := by
  simp only [issueBook, issueScan_eq_unavailable hfind hav]

theorem unavailable_rejection_witness :
    findBook? 1 [⟨1, "", "", "", "", 1, 0, 0⟩] = some ⟨1, "", "", "", "", 1, 0, 0⟩ ∧
    (⟨1, "", "", "", "", 1, 0, 0⟩ : Book).availableCopies ≤ 0 ∧
    issueBook ⟨[⟨1, "", "", "", "", 1, 0, 0⟩], [], [], 2⟩ 1 7 50 =
      ({ success := false, message := "Book not available" }, none,
        ⟨[⟨1, "", "", "", "", 1, 0, 0⟩], [], [], 2⟩) :=
  ⟨by decide, by decide,
    unavailable_rejection ⟨[⟨1, "", "", "", "", 1, 0, 0⟩], [], [], 2⟩ 1 7 50
      ⟨1, "", "", "", "", 1, 0, 0⟩ (by decide) (by decide)⟩

/-- C4: Monotonic terminality of RETURNED: starting from a consistent state,
a loan whose status is RETURNED survives any sequence of operations as the
same unmodified record (same `status`, `returnDate`, `fine`), and a second
`returnBook` on its id at any later point fails with the "Already returned"
outcome and leaves the state unchanged. -/
theorem returned_loan_terminal (s : LibraryState) (l : Transaction)
    (ops : List Op) (now : Nat) (hcon : consistent s)
    (hl : l ∈ s.transactions) (hret : l.status = .RETURNED) :
    l ∈ (applyOps s ops).transactions ∧
    returnBook (applyOps s ops) l.id now =
      ({ success := false, message := "Already returned" }, applyOps s ops) :=
  ⟨returned_mem_applyOps hl hret ops,
    returnBook_already (consistent_applyOps hcon ops)
      (returned_mem_applyOps hl hret ops) hret now⟩

theorem returned_loan_terminal_witness :
    consistent ⟨[], [], [⟨5, 9, 9, 0, 100, some 60, .RETURNED, 0⟩], 10⟩ ∧
    (⟨5, 9, 9, 0, 100, some 60, .RETURNED, 0⟩ : Transaction) ∈
      (⟨[], [], [⟨5, 9, 9, 0, 100, some 60, .RETURNED, 0⟩], 10⟩ : LibraryState).transactions ∧
    (⟨5, 9, 9, 0, 100, some 60, .RETURNED, 0⟩ : Transaction).status = .RETURNED ∧
    ((⟨5, 9, 9, 0, 100, some 60, .RETURNED, 0⟩ : Transaction) ∈
      (applyOps ⟨[], [], [⟨5, 9, 9, 0, 100, some 60, .RETURNED, 0⟩], 10⟩
        [.returnBook 5 70]).transactions ∧
    returnBook (applyOps ⟨[], [], [⟨5, 9, 9, 0, 100, some 60, .RETURNED, 0⟩], 10⟩
        [.returnBook 5 70])
        (⟨5, 9, 9, 0, 100, some 60, .RETURNED, 0⟩ : Transaction).id 80 =
      ({ success := false, message := "Already returned" },
        applyOps ⟨[], [], [⟨5, 9, 9, 0, 100, some 60, .RETURNED, 0⟩], 10⟩
          [.returnBook 5 70])) :=
  ⟨by decide, by decide, by decide,
    returned_loan_terminal _ _ [.returnBook 5 70] 80 (by decide) (by decide)
      (by decide)⟩

/-- C5: the code performs no member validation: in a state whose student
collection is empty, issuing an available book to the absent student id 77
reports success and creates the orphan loan anyway (`issueBook` never reads
`students`), where the claim requires a NotFound("member") failure. -/
theorem issue_missing_member_validation :
    (⟨[⟨1, "", "", "", "", 1, 1, 0⟩], [], [], 2⟩ : LibraryState).students = [] ∧
    (issueBook ⟨[⟨1, "", "", "", "", 1, 1, 0⟩], [], [], 2⟩ 1 77 0).1 =
      { success := true, message := "Book issued successfully" } ∧
    (issueBook ⟨[⟨1, "", "", "", "", 1, 1, 0⟩], [], [], 2⟩ 1 77 0).2.2.transactions =
      [⟨2, 1, 77, 0, loanPeriodMs, none, .ISSUED, 0⟩] := by
  refine ⟨rfl, by decide, by decide⟩

/-- C6: the code has no InvariantViolation check: in a corrupted state where
the book already has `availableCopies = totalCopies = 1` and an outstanding
ISSUED loan on it, `returnBook` reports success and increments
`availableCopies` to 2, exceeding `totalCopies`, where the claim requires an
InvariantViolation failure with no write. -/
theorem return_missing_invariant_check :
    (findBook? 1 (⟨[⟨1, "", "", "", "", 1, 1, 0⟩], [],
        [⟨2, 1, 3, 0, 100, none, .ISSUED, 0⟩], 4⟩ : LibraryState).books).map
        Book.availableCopies = some 1 ∧
    (findBook? 1 (⟨[⟨1, "", "", "", "", 1, 1, 0⟩], [],
        [⟨2, 1, 3, 0, 100, none, .ISSUED, 0⟩], 4⟩ : LibraryState).books).map
        Book.totalCopies = some 1 ∧
    (returnBook ⟨[⟨1, "", "", "", "", 1, 1, 0⟩], [],
        [⟨2, 1, 3, 0, 100, none, .ISSUED, 0⟩], 4⟩ 2 50).1.success = true ∧
    (returnBook ⟨[⟨1, "", "", "", "", 1, 1, 0⟩], [],
        [⟨2, 1, 3, 0, 100, none, .ISSUED, 0⟩], 4⟩ 2 50).2.books =
      [⟨1, "", "", "", "", 1, 2, 0⟩] := by
  refine ⟨by decide, by decide, by decide, by decide⟩

/-- C7 counterexample: `addBook` with `totalCopies = 0` (not a positive
integer) does not fail with InvalidInput and does not leave the collection
unchanged: it appends a Book with `availableCopies = totalCopies = 0`. -/
theorem addBook_counterexample :
    (addBook ⟨[], [], [], 0⟩ "t" "a" "i" "c" 0 5).2.books.length = 1 ∧
    (addBook ⟨[], [], [], 0⟩ "t" "a" "i" "c" 0 5).1.totalCopies = 0 ∧
    (addBook ⟨[], [], [], 0⟩ "t" "a" "i" "c" 0 5).1.availableCopies = 0 := by
  refine ⟨rfl, rfl, rfl⟩

/-- C7 amended: `addBook` performs no validation of `totalCopies`; for every
input (positive or not) it appends exactly one new Book with
`availableCopies = totalCopies`, a fresh id (distinct from every existing
Book's id in a consistent state) and `addedAt = now`, leaving the existing
Books, the students and the transactions unchanged, and returns the new
Book. -/
theorem addBook_postcondition (s : LibraryState)
    (title author isbn category : String) (tc : Int) (now : Nat)
    (hcon : consistent s) :
    (addBook s title author isbn category tc now).2.books =
      s.books ++ [newBook s title author isbn category tc now] ∧
    (newBook s title author isbn category tc now).availableCopies = tc ∧
    (newBook s title author isbn category tc now).totalCopies = tc ∧
    (newBook s title author isbn category tc now).addedAt = now ∧
    (newBook s title author isbn category tc now).id = s.nextId ∧
    (∀ b ∈ s.books, b.id ≠ (newBook s title author isbn category tc now).id) ∧
    (addBook s title author isbn category tc now).2.transactions = s.transactions ∧
    (addBook s title author isbn category tc now).2.students = s.students ∧
    (addBook s title author isbn category tc now).1 =
      newBook s title author isbn category tc now := by
  refine ⟨rfl, rfl, rfl, rfl, rfl, ?_, rfl, rfl, rfl⟩
  intro b hb
  exact Nat.ne_of_lt (hcon.2.1 b hb)

theorem addBook_postcondition_witness :
    consistent ⟨[⟨1, "", "", "", "", 2, 2, 0⟩], [], [], 2⟩ ∧
    ((addBook ⟨[⟨1, "", "", "", "", 2, 2, 0⟩], [], [], 2⟩ "t" "a" "i" "c" 0 5).2.books =
      (⟨[⟨1, "", "", "", "", 2, 2, 0⟩], [], [], 2⟩ : LibraryState).books ++
        [newBook ⟨[⟨1, "", "", "", "", 2, 2, 0⟩], [], [], 2⟩ "t" "a" "i" "c" 0 5] ∧
    (newBook ⟨[⟨1, "", "", "", "", 2, 2, 0⟩], [], [], 2⟩ "t" "a" "i" "c" 0 5).availableCopies = 0 ∧
    (newBook ⟨[⟨1, "", "", "", "", 2, 2, 0⟩], [], [], 2⟩ "t" "a" "i" "c" 0 5).totalCopies = 0 ∧
    (newBook ⟨[⟨1, "", "", "", "", 2, 2, 0⟩], [], [], 2⟩ "t" "a" "i" "c" 0 5).addedAt = 5 ∧
    (newBook ⟨[⟨1, "", "", "", "", 2, 2, 0⟩], [], [], 2⟩ "t" "a" "i" "c" 0 5).id =
      (⟨[⟨1, "", "", "", "", 2, 2, 0⟩], [], [], 2⟩ : LibraryState).nextId ∧
    (∀ b ∈ (⟨[⟨1, "", "", "", "", 2, 2, 0⟩], [], [], 2⟩ : LibraryState).books,
      b.id ≠ (newBook ⟨[⟨1, "", "", "", "", 2, 2, 0⟩], [], [], 2⟩ "t" "a" "i" "c" 0 5).id) ∧
    (addBook ⟨[⟨1, "", "", "", "", 2, 2, 0⟩], [], [], 2⟩ "t" "a" "i" "c" 0 5).2.transactions =
      (⟨[⟨1, "", "", "", "", 2, 2, 0⟩], [], [], 2⟩ : LibraryState).transactions ∧
    (addBook ⟨[⟨1, "", "", "", "", 2, 2, 0⟩], [], [], 2⟩ "t" "a" "i" "c" 0 5).2.students =
      (⟨[⟨1, "", "", "", "", 2, 2, 0⟩], [], [], 2⟩ : LibraryState).students ∧
    (addBook ⟨[⟨1, "", "", "", "", 2, 2, 0⟩], [], [], 2⟩ "t" "a" "i" "c" 0 5).1 =
      newBook ⟨[⟨1, "", "", "", "", 2, 2, 0⟩], [], [], 2⟩ "t" "a" "i" "c" 0 5) :=
  ⟨by decide,
    addBook_postcondition ⟨[⟨1, "", "", "", "", 2, 2, 0⟩], [], [], 2⟩
      "t" "a" "i" "c" 0 5 (by decide)⟩

/-- C8 counterexample: deleting an unknown id does not fail: `deleteBook`
returns no value and its UI caller unconditionally reports the success
message, so with id 99 absent the surfaced outcome has `success = true`
instead of a NotFound failure (and likewise for `deleteStudent`). -/
theorem delete_unknown_counterexample :
    (∀ b ∈ (⟨[⟨1, "", "", "", "", 2, 2, 0⟩], [⟨2, "", "", "", "", 0⟩],
      [⟨3, 1, 2, 0, 100, none, .ISSUED, 0⟩], 4⟩ : LibraryState).books, b.id ≠ 99) ∧
    deleteBookOutcome ⟨[⟨1, "", "", "", "", 2, 2, 0⟩], [⟨2, "", "", "", "", 0⟩],
        [⟨3, 1, 2, 0, 100, none, .ISSUED, 0⟩], 4⟩ 99 =
      ({ success := true, message := "Book deleted." },
        ⟨[⟨1, "", "", "", "", 2, 2, 0⟩], [⟨2, "", "", "", "", 0⟩],
          [⟨3, 1, 2, 0, 100, none, .ISSUED, 0⟩], 4⟩) ∧
    deleteStudentOutcome ⟨[⟨1, "", "", "", "", 2, 2, 0⟩], [⟨2, "", "", "", "", 0⟩],
        [⟨3, 1, 2, 0, 100, none, .ISSUED, 0⟩], 4⟩ 99 =
      ({ success := true, message := "Student removed." },
        ⟨[⟨1, "", "", "", "", 2, 2, 0⟩], [⟨2, "", "", "", "", 0⟩],
          [⟨3, 1, 2, 0, 100, none, .ISSUED, 0⟩], 4⟩) := by
  refine ⟨by decide, by decide, by decide⟩

/-- C8 amended: for every id not present in the Books collection,
`deleteBook` leaves the whole state unchanged (even when the id names an
existing student), and symmetrically `deleteStudent` for every id not
present in the Students collection; deletion never cascades to existing
Loans for any id and any state; but no NotFound is reported: the operations
return no value and the surfaced outcome is unconditional success. -/
theorem delete_unknown_id (s : LibraryState) (id : Nat) :
    ((∀ b ∈ s.books, b.id ≠ id) →
      deleteBookOutcome s id =
        ({ success := true, message := "Book deleted." }, s)) ∧
    ((∀ st ∈ s.students, st.id ≠ id) →
      deleteStudentOutcome s id =
        ({ success := true, message := "Student removed." }, s)) ∧
    (deleteBook s id).transactions = s.transactions ∧
    (deleteStudent s id).transactions = s.transactions := by
  refine ⟨?_, ?_, rfl, rfl⟩
  · intro hb
    have hbooks : s.books.filter (fun b => b.id ≠ id) = s.books :=
      List.filter_eq_self.mpr fun b hbm => by simp [hb b hbm]
    rw [deleteBookOutcome, deleteBook, hbooks]
  · intro hst
    have hstud : s.students.filter (fun st => st.id ≠ id) = s.students :=
      List.filter_eq_self.mpr fun st hsm => by simp [hst st hsm]
    rw [deleteStudentOutcome, deleteStudent, hstud]

theorem delete_unknown_id_witness :
    deleteBookOutcome ⟨[⟨1, "", "", "", "", 2, 2, 0⟩], [⟨2, "", "", "", "", 0⟩],
        [⟨3, 1, 2, 0, 100, none, .ISSUED, 0⟩], 4⟩ 2 =
      ({ success := true, message := "Book deleted." },
        ⟨[⟨1, "", "", "", "", 2, 2, 0⟩], [⟨2, "", "", "", "", 0⟩],
          [⟨3, 1, 2, 0, 100, none, .ISSUED, 0⟩], 4⟩) ∧
    deleteStudentOutcome ⟨[⟨1, "", "", "", "", 2, 2, 0⟩], [⟨2, "", "", "", "", 0⟩],
        [⟨3, 1, 2, 0, 100, none, .ISSUED, 0⟩], 4⟩ 1 =
      ({ success := true, message := "Student removed." },
        ⟨[⟨1, "", "", "", "", 2, 2, 0⟩], [⟨2, "", "", "", "", 0⟩],
          [⟨3, 1, 2, 0, 100, none, .ISSUED, 0⟩], 4⟩) ∧
    (deleteBook ⟨[⟨1, "", "", "", "", 2, 2, 0⟩], [⟨2, "", "", "", "", 0⟩],
        [⟨3, 1, 2, 0, 100, none, .ISSUED, 0⟩], 4⟩ 1).transactions =
      (⟨[⟨1, "", "", "", "", 2, 2, 0⟩], [⟨2, "", "", "", "", 0⟩],
        [⟨3, 1, 2, 0, 100, none, .ISSUED, 0⟩], 4⟩ : LibraryState).transactions ∧
    (deleteStudent ⟨[⟨1, "", "", "", "", 2, 2, 0⟩], [⟨2, "", "", "", "", 0⟩],
        [⟨3, 1, 2, 0, 100, none, .ISSUED, 0⟩], 4⟩ 2).transactions =
      (⟨[⟨1, "", "", "", "", 2, 2, 0⟩], [⟨2, "", "", "", "", 0⟩],
        [⟨3, 1, 2, 0, 100, none, .ISSUED, 0⟩], 4⟩ : LibraryState).transactions :=
  ⟨(delete_unknown_id ⟨[⟨1, "", "", "", "", 2, 2, 0⟩], [⟨2, "", "", "", "", 0⟩],
      [⟨3, 1, 2, 0, 100, none, .ISSUED, 0⟩], 4⟩ 2).1 (by decide),
    (delete_unknown_id ⟨[⟨1, "", "", "", "", 2, 2, 0⟩], [⟨2, "", "", "", "", 0⟩],
      [⟨3, 1, 2, 0, 100, none, .ISSUED, 0⟩], 4⟩ 1).2.1 (by decide),
    (delete_unknown_id ⟨[⟨1, "", "", "", "", 2, 2, 0⟩], [⟨2, "", "", "", "", 0⟩],
      [⟨3, 1, 2, 0, 100, none, .ISSUED, 0⟩], 4⟩ 1).2.2.1,
    (delete_unknown_id ⟨[⟨1, "", "", "", "", 2, 2, 0⟩], [⟨2, "", "", "", "", 0⟩],
      [⟨3, 1, 2, 0, 100, none, .ISSUED, 0⟩], 4⟩ 2).2.2.2⟩

/-- C9: Successful issue postcondition: when the book identified by `bookId`
is present (as the first id match) with `availableCopies > 0`, `issueBook`
succeeds, decrements exactly that book's `availableCopies` by 1, appends
exactly one new loan with `status = ISSUED`, `fine = 0`, `issueDate = now`
and `dueDate = now + 7` days, bumps the id counter, and returns the loan;
every other book and every existing loan is unchanged. -/
theorem issue_success_postcondition (s : LibraryState)
    (bookId studentId now : Nat) (pre suf : List Book) (b : Book)
    (hbs : s.books = pre ++ b :: suf) (hpre : ∀ x ∈ pre, x.id ≠ bookId)
    (hbId : b.id = bookId) (hav : 0 < b.availableCopies) :
    issueBook s bookId studentId now =
      ({ success := true, message := "Book issued successfully" },
        some (newLoan s bookId studentId now),
        { s with
            books := pre ++ { b with availableCopies := b.availableCopies - 1 } :: suf
            transactions := s.transactions ++ [newLoan s bookId studentId now]
            nextId := s.nextId + 1 }) ∧
    (newLoan s bookId studentId now).status = .ISSUED ∧
    (newLoan s bookId studentId now).fine = 0 ∧
    (newLoan s bookId studentId now).issueDate = now ∧
    (newLoan s bookId studentId now).dueDate = now + 7 * msPerDay ∧
    (newLoan s bookId studentId now).bookId = bookId ∧
    (newLoan s bookId studentId now).id = s.nextId := by
  refine ⟨?_, rfl, rfl, rfl, ?_, rfl, rfl⟩
  · have hscan := @issueScan_eq_ok bookId pre suf b hpre hbId (by omega)
    simp only [issueBook, hbs, hscan]
  · show now + loanPeriodMs = now + 7 * msPerDay
    norm_num [loanPeriodMs, msPerDay]

theorem issue_success_postcondition_witness :
    (⟨[⟨1, "", "", "", "", 2, 2, 0⟩], [], [], 3⟩ : LibraryState).books =
      [] ++ ⟨1, "", "", "", "", 2, 2, 0⟩ :: [] ∧
    (0 : Int) < (⟨1, "", "", "", "", 2, 2, 0⟩ : Book).availableCopies ∧
    (issueBook ⟨[⟨1, "", "", "", "", 2, 2, 0⟩], [], [], 3⟩ 1 7 100 =
      ({ success := true, message := "Book issued successfully" },
        some (newLoan ⟨[⟨1, "", "", "", "", 2, 2, 0⟩], [], [], 3⟩ 1 7 100),
        { (⟨[⟨1, "", "", "", "", 2, 2, 0⟩], [], [], 3⟩ : LibraryState) with
            books := [] ++
              { (⟨1, "", "", "", "", 2, 2, 0⟩ : Book) with
                  availableCopies :=
                    (⟨1, "", "", "", "", 2, 2, 0⟩ : Book).availableCopies - 1 } :: []
            transactions :=
              (⟨[⟨1, "", "", "", "", 2, 2, 0⟩], [], [], 3⟩ : LibraryState).transactions ++
                [newLoan ⟨[⟨1, "", "", "", "", 2, 2, 0⟩], [], [], 3⟩ 1 7 100]
            nextId :=
              (⟨[⟨1, "", "", "", "", 2, 2, 0⟩], [], [], 3⟩ : LibraryState).nextId + 1 }) ∧
    (newLoan ⟨[⟨1, "", "", "", "", 2, 2, 0⟩], [], [], 3⟩ 1 7 100).status = .ISSUED ∧
    (newLoan ⟨[⟨1, "", "", "", "", 2, 2, 0⟩], [], [], 3⟩ 1 7 100).fine = 0 ∧
    (newLoan ⟨[⟨1, "", "", "", "", 2, 2, 0⟩], [], [], 3⟩ 1 7 100).issueDate = 100 ∧
    (newLoan ⟨[⟨1, "", "", "", "", 2, 2, 0⟩], [], [], 3⟩ 1 7 100).dueDate =
      100 + 7 * msPerDay ∧
    (newLoan ⟨[⟨1, "", "", "", "", 2, 2, 0⟩], [], [], 3⟩ 1 7 100).bookId = 1 ∧
    (newLoan ⟨[⟨1, "", "", "", "", 2, 2, 0⟩], [], [], 3⟩ 1 7 100).id =
      (⟨[⟨1, "", "", "", "", 2, 2, 0⟩], [], [], 3⟩ : LibraryState).nextId) :=
  ⟨rfl, by decide,
    issue_success_postcondition ⟨[⟨1, "", "", "", "", 2, 2, 0⟩], [], [], 3⟩
      1 7 100 [] [] ⟨1, "", "", "", "", 2, 2, 0⟩ rfl (by decide) rfl (by decide)⟩

/-- C10: Return with a dangling book reference: when the loan identified by
`loanId` exists (as the first id match) with status ISSUED but no book
matches the loan's `bookId`, `returnBook` still reports success with the
computed fine, marks the loan RETURNED with `returnDate = now`, and leaves
the book collection entirely unchanged (no `availableCopies` increment
anywhere). -/
theorem return_dangling_book (s : LibraryState) (txnId now : Nat)
    (tpre tsuf : List Transaction) (t : Transaction)
    (hts : s.transactions = tpre ++ t :: tsuf)
    (htpre : ∀ x ∈ tpre, x.id ≠ txnId) (htId : t.id = txnId)
    (htSt : t.status = .ISSUED)
    (hnb : ∀ b ∈ s.books, b.id ≠ t.bookId) :
    returnBook s txnId now =
      ({ success := true,
          message := "Book returned. Fine: $" ++ toString (computeFine now t.dueDate) },
        { s with
            transactions := tpre ++ { t with
                returnDate := some now
                status := .RETURNED
                fine := computeFine now t.dueDate } :: tsuf }) := by
  have hscan := @returnScan_eq_ok txnId now tpre tsuf t htpre htId
    (by rw [htSt]; decide)
  simp only [returnBook, hts, hscan, incFirstBook_of_none hnb]

theorem return_dangling_book_witness :
    (⟨[], [], [⟨5, 9, 7, 0, 100, none, .ISSUED, 0⟩], 10⟩ : LibraryState).transactions =
      [] ++ ⟨5, 9, 7, 0, 100, none, .ISSUED, 0⟩ :: [] ∧
    (⟨5, 9, 7, 0, 100, none, .ISSUED, 0⟩ : Transaction).status = .ISSUED ∧
    (∀ b ∈ (⟨[], [], [⟨5, 9, 7, 0, 100, none, .ISSUED, 0⟩], 10⟩ : LibraryState).books,
      b.id ≠ (⟨5, 9, 7, 0, 100, none, .ISSUED, 0⟩ : Transaction).bookId) ∧
    returnBook ⟨[], [], [⟨5, 9, 7, 0, 100, none, .ISSUED, 0⟩], 10⟩ 5 50 =
      ({ success := true,
          message := "Book returned. Fine: $" ++
            toString (computeFine 50 (⟨5, 9, 7, 0, 100, none, .ISSUED, 0⟩ : Transaction).dueDate) },
        { (⟨[], [], [⟨5, 9, 7, 0, 100, none, .ISSUED, 0⟩], 10⟩ : LibraryState) with
            transactions := [] ++ { (⟨5, 9, 7, 0, 100, none, .ISSUED, 0⟩ : Transaction) with
                returnDate := some 50
                status := .RETURNED
                fine := computeFine 50
                  (⟨5, 9, 7, 0, 100, none, .ISSUED, 0⟩ : Transaction).dueDate } :: [] }) :=
  ⟨rfl, rfl, by decide,
    return_dangling_book ⟨[], [], [⟨5, 9, 7, 0, 100, none, .ISSUED, 0⟩], 10⟩ 5 50
      [] [] ⟨5, 9, 7, 0, 100, none, .ISSUED, 0⟩ rfl (by decide) rfl rfl (by decide)⟩

end Library
